import Mathlib

/-!
Shallow embedding of the normalization / selection core of the
cricket-social-media-automation repository.

The repository's Python sources are embedded as Lean functions over a
`Json` tree type.  Python's dynamic failures (calling `.get` on a
non-dict, `.strip()` on a non-string, iterating a non-iterable) are
modelled with `Except PyErr`; Python truthiness, `or`-chains and
`dict.get` defaults are modelled explicitly.
-/

/-- Python exception kinds that the embedded code can raise. -/
inductive PyErr where
  | attributeError
  | typeError
  | keyError
  | valueError
deriving DecidableEq, Repr

/-- Semi-structured JSON-like values, as handled by the Python scripts.
Numbers are modelled as integers (the scripts never do arithmetic on
fractional values along the verified paths). -/
inductive Json where
  | null
  | bool (b : Bool)
  | num (n : Int)
  | str (s : String)
  | arr (xs : List Json)
  | obj (fields : List (String × Json))

/-- Lowercase a string character-wise (Python `str.lower()`; the data
handled by the scripts is ASCII). -/
def toLowerStr (s : String) : String := String.mk (s.toList.map Char.toLower)

/-- Strip leading and trailing whitespace (Python `str.strip()`). -/
def trimStr (s : String) : String :=
  String.mk (((s.toList.dropWhile Char.isWhitespace).reverse.dropWhile
    Char.isWhitespace).reverse)

namespace Json

/-- Python truthiness of a value (`bool(v)`). -/
def truthy : Json → Bool
  | .null => false
  | .bool b => b
  | .num n => n != 0
  | .str s => s != ""
  | .arr xs => !xs.isEmpty
  | .obj fs => !fs.isEmpty

/-- Python `a or b`: `a` when truthy, else `b`. -/
def pyOr (a b : Json) : Json := if a.truthy then a else b

def isObj : Json → Bool
  | .obj _ => true
  | _ => false

def isStr : Json → Bool
  | .str _ => true
  | _ => false

/-- Python `d.get(k, default)`: raises `AttributeError` when the receiver
is not a dict; returns the stored value (even when falsy) when the key is
present, else the default. -/
def getD (j : Json) (k : String) (d : Json) : Except PyErr Json :=
  match j with
  | .obj fs => .ok ((fs.lookup k).getD d)
  | _ => .error .attributeError

/-- Python `d.get(k)` (default `None`). -/
def get (j : Json) (k : String) : Except PyErr Json :=
  j.getD k .null

/-- Python iteration (`for x in j`): lists yield elements, strings yield
one-character strings, dicts yield their keys, anything else raises
`TypeError`. -/
def iter : Json → Except PyErr (List Json)
  | .arr xs => .ok xs
  | .str s => .ok (s.toList.map fun c => .str (String.mk [c]))
  | .obj fs => .ok (fs.map fun kv => .str kv.1)
  | _ => .error .typeError

/-- Python `v.strip()`: only strings have `.strip`. -/
def pyStrip : Json → Except PyErr String
  | .str s => .ok (trimStr s)
  | _ => .error .attributeError

/-- Python `v.lower()`: only strings have `.lower`. -/
def pyLower : Json → Except PyErr String
  | .str s => .ok (toLowerStr s)
  | _ => .error .attributeError

/-- Pure lookup with default on an object; the default on
non-objects (used only to state well-formedness side conditions). -/
def objGetD (j : Json) (k : String) (d : Json) : Json :=
  match j with
  | .obj fs => (fs.lookup k).getD d
  | _ => d

end Json

/-- Substring containment, Python's `needle in haystack` for strings. -/
def strContains (s pat : String) : Bool := decide (pat.toList <:+: s.toList)

/-- `Except` carries a value (no exception was raised). -/
def exOk {ε α : Type} : Except ε α → Bool
  | .ok _ => true
  | .error _ => false

/-- Effectful map over a list, stopping at the first raised exception,
mirroring a Python `for` loop that builds up a list. -/
def eMapM {α β : Type} (f : α → Except PyErr β) : List α → Except PyErr (List β)
  | [] => .ok []
  | x :: xs =>
    match f x with
    | .error e => .error e
    | .ok y =>
      match eMapM f xs with
      | .error e => .error e
      | .ok ys => .ok (y :: ys)

/-! ## daily_cricket_automation.py — configuration and date handling -/

/-- `TEST_DATE` constant from `daily_cricket_automation.py`. -/
def TEST_DATE : String := "2026-02-15"

/-- Python `x == True` as used in `is_completed` (`1 == True` holds). -/
def pyEqTrue : Json → Bool
  | .bool b => b
  | .num n => n == 1
  | _ => false

/-- A calendar date (year, month, day). -/
structure Date where
  year : Nat
  month : Nat
  day : Nat
deriving DecidableEq, Repr

/-- Gregorian leap-year rule, as used by `datetime.date`. -/
def isLeapYear (y : Nat) : Bool :=
  y % 4 == 0 && (y % 100 != 0 || y % 400 == 0)

/-- Days in a month of a given year. -/
def daysInMonth (y m : Nat) : Nat :=
  if m == 2 then (if isLeapYear y then 29 else 28)
  else if m == 4 || m == 6 || m == 9 || m == 11 then 30
  else 31

/-- Split a character list at every occurrence of a separator
(Python `s.split(sep)` for a one-character separator). -/
def splitChar (c : Char) : List Char → List (List Char)
  | [] => [[]]
  | x :: xs =>
    let r := splitChar c xs
    if x == c then [] :: r
    else
      match r with
      | h :: t => (x :: h) :: t
      | [] => [[x]]

/-- Numeric value of a digit list. -/
def digitsToNat (l : List Char) : Nat :=
  l.foldl (fun a c => a * 10 + (c.toNat - 48)) 0

/-- `datetime.strptime(s, "%Y-%m-%d").date()` as a partial function:
four-digit year, one/two-digit month and day, validated against the
calendar; `none` models the raised `ValueError`. -/
def strptimeDate (s : String) : Option Date :=
  match splitChar '-' s.toList with
  | [ys, ms, ds] =>
    if ys.length == 4 && ys.all Char.isDigit &&
       decide (0 < ms.length) && decide (ms.length ≤ 2) && ms.all Char.isDigit &&
       decide (0 < ds.length) && decide (ds.length ≤ 2) && ds.all Char.isDigit then
      let y := digitsToNat ys
      let m := digitsToNat ms
      let d := digitsToNat ds
      if decide (1 ≤ m) && decide (m ≤ 12) && decide (1 ≤ d) &&
         decide (d ≤ daysInMonth y m) then
        some ⟨y, m, d⟩
      else none
    else none
  | _ => none

/-- `get_target_date` generalized over the configured date string; a
parse failure is an uncaught `ValueError`. -/
def get_target_date_with (testDate : String) : Except PyErr Date :=
  match strptimeDate testDate with
  | some d => .ok d
  | none => .error .valueError

/-- `get_target_date` with the repository's `TEST_DATE`. -/
def get_target_date : Except PyErr Date := get_target_date_with TEST_DATE

/-! ## daily_cricket_automation.py — filter functions -/

/-- `is_main_t20_world_cup(match)`: tournament markers checked on the
lowercased series/name, warm-up markers subtracted. -/
def is_main_t20_world_cup (m : Json) : Except PyErr Bool := do
  let n ← m.getD "name" (.str "")
  let name ← n.pyLower
  let s ← m.getD "series" (.str "")
  let series ← s.pyLower
  let is_t20wc :=
    strContains series "t20 world cup" ||
    strContains series "icc men\x27s t20" ||
    strContains series "icc t20 world cup" ||
    strContains name "t20 world cup"
  let is_warmup :=
    strContains name "warm up" ||
    strContains name "warm-up" ||
    strContains name "warmup" ||
    strContains name "practice" ||
    strContains series "warm up" ||
    strContains series "warm-up"
  pure (is_t20wc && !is_warmup)

/-- `is_on_target_date(match)` generalized over the configured target
date string.  The target-date parse is outside the `try` block; the
match-date parse is inside a bare `except`, so any failure there (bad
format or a non-string value) yields `False`. -/
def is_on_target_date_with (testDate : String) (m : Json) : Except PyErr Bool := do
  let target ← get_target_date_with testDate
  let mdJ ← m.getD "date" (.str "")
  if !mdJ.truthy then
    pure false
  else
    match mdJ with
    | .str s =>
      match strptimeDate s with
      | some d => pure (d == target)
      | none => pure false
    | _ => pure false

/-- `is_on_target_date` with the repository's `TEST_DATE`. -/
def is_on_target_date (m : Json) : Except PyErr Bool :=
  is_on_target_date_with TEST_DATE m

/-- `is_completed(match)`: ended flag, or completion substrings in the
lowercased status. -/
def is_completed (m : Json) : Except PyErr Bool := do
  let st ← m.getD "status" (.str "")
  let status ← st.pyLower
  let match_ended ← m.getD "matchEnded" (.bool false)
  pure (pyEqTrue match_ended ||
    strContains status "won" ||
    strContains status "tied" ||
    strContains status "abandoned" ||
    strContains status "no result")

/-! ## daily_cricket_automation.py — parse functions -/

/-- Canonical batting row built by `parse_scorecard`.  Fields keep the
raw `Json` values the Python dict stores. -/
structure BattingEntry where
  name : Json
  runs : Json
  balls : Json
  fours : Json
  sixes : Json
  strike_rate : Json
  dismissal : Json

/-- Canonical bowling row built by `parse_scorecard`. -/
structure BowlingEntry where
  name : Json
  overs : Json
  maidens : Json
  runs : Json
  wickets : Json
  economy : Json

/-- Canonical innings built by `parse_scorecard`. -/
structure Inning where
  team : Json
  runs : Json
  wickets : Json
  overs : Json
  extras : Json
  batting : List BattingEntry
  bowling : List BowlingEntry
  fall_of_wickets : Json

/-- The resolved batting name, before the emptiness check:
`b.get("batsmanName") or b.get("name") or b.get("batsman") or ""`. -/
def batting_name (b : Json) : Except PyErr Json := do
  let n1 ← b.get "batsmanName"
  let n2 ← b.get "name"
  let n3 ← b.get "batsman"
  pure (n1.pyOr (n2.pyOr (n3.pyOr (.str ""))))

/-- One iteration of the batting loop of `parse_scorecard`:
`none` models `continue` (the skipped empty-name row). -/
def parse_batting_row (b : Json) : Except PyErr (Option BattingEntry) := do
  let name ← batting_name b
  let stripped ← name.pyStrip
  if stripped == "" then
    pure none
  else do
    let runs ← b.getD "runs" (.num 0)
    let balls ← b.getD "balls" (.num 0)
    let f1 ← b.get "fours"
    let f2 ← b.get "4s"
    let s1 ← b.get "sixes"
    let s2 ← b.get "6s"
    let sr1 ← b.get "strikeRate"
    let sr2 ← b.get "sr"
    let d1 ← b.get "dismissal-wicket"
    let d2 ← b.get "wicket"
    let d3 ← b.get "dismissal"
    pure (some
      { name := name
        runs := runs
        balls := balls
        fours := f1.pyOr (f2.pyOr (.num 0))
        sixes := s1.pyOr (s2.pyOr (.num 0))
        strike_rate := sr1.pyOr (sr2.pyOr (.num 0))
        dismissal := d1.pyOr (d2.pyOr (d3.pyOr (.str "not out"))) })

/-- The resolved bowling name, before the emptiness check:
`b.get("bowlerName") or b.get("name") or b.get("bowler") or ""`. -/
def bowling_name (b : Json) : Except PyErr Json := do
  let n1 ← b.get "bowlerName"
  let n2 ← b.get "name"
  let n3 ← b.get "bowler"
  pure (n1.pyOr (n2.pyOr (n3.pyOr (.str ""))))

/-- One iteration of the bowling loop of `parse_scorecard`. -/
def parse_bowling_row (b : Json) : Except PyErr (Option BowlingEntry) := do
  let name ← bowling_name b
  let stripped ← name.pyStrip
  if stripped == "" then
    pure none
  else do
    let overs ← b.getD "overs" (.num 0)
    let m1 ← b.get "maidens"
    let m2 ← b.get "m"
    let r1 ← b.get "runs"
    let r2 ← b.get "r"
    let w1 ← b.get "wickets"
    let w2 ← b.get "w"
    let e1 ← b.get "economy"
    let e2 ← b.get "eco"
    pure (some
      { name := name
        overs := overs
        maidens := m1.pyOr (m2.pyOr (.num 0))
        runs := r1.pyOr (r2.pyOr (.num 0))
        wickets := w1.pyOr (w2.pyOr (.num 0))
        economy := e1.pyOr (e2.pyOr (.num 0)) })

/-- The batting loop of `parse_scorecard`: iterate
`inning.get("batting") or inning.get("batsmen") or []`, skipped rows
dropped. -/
def parse_batting_list (inning : Json) : Except PyErr (List BattingEntry) := do
  let b1 ← inning.get "batting"
  let b2 ← inning.get "batsmen"
  let items ← (b1.pyOr (b2.pyOr (.arr []))).iter
  let rows ← eMapM parse_batting_row items
  pure (rows.filterMap id)

/-- The bowling loop of `parse_scorecard`: iterate
`inning.get("bowling") or inning.get("bowlers") or []`, skipped rows
dropped. -/
def parse_bowling_list (inning : Json) : Except PyErr (List BowlingEntry) := do
  let b1 ← inning.get "bowling"
  let b2 ← inning.get "bowlers"
  let items ← (b1.pyOr (b2.pyOr (.arr []))).iter
  let rows ← eMapM parse_bowling_row items
  pure (rows.filterMap id)

/-- One iteration of the innings loop of `parse_scorecard`. -/
def parse_inning (inning : Json) : Except PyErr Inning := do
  let t1 ← inning.get "inningsTeamName"
  let t2 ← inning.get "teamName"
  let t3 ← inning.get "team"
  let r1 ← inning.get "inningsRuns"
  let r2 ← inning.get "runs"
  let w1 ← inning.get "inningsWickets"
  let w2 ← inning.get "wickets"
  let o1 ← inning.get "inningsOvers"
  let o2 ← inning.get "overs"
  let e1 ← inning.get "extras"
  let e2 ← inning.get "inningsExtras"
  let fw1 ← inning.get "fow"
  let fw2 ← inning.get "fallOfWickets"
  let batting ← parse_batting_list inning
  let bowling ← parse_bowling_list inning
  pure
    { team := t1.pyOr (t2.pyOr (t3.pyOr (.str "")))
      runs := r1.pyOr (r2.pyOr (.num 0))
      wickets := w1.pyOr (w2.pyOr (.num 0))
      overs := o1.pyOr (o2.pyOr (.num 0))
      extras := e1.pyOr (e2.pyOr (.num 0))
      batting := batting
      bowling := bowling
      fall_of_wickets := fw1.pyOr (fw2.pyOr (.arr [])) }

/-- `parse_scorecard(scorecard)`: resolves the innings container through
the `scorecard`/`innings`/`score` fallback chain and parses each
innings. -/
def parse_scorecard (scorecard : Json) : Except PyErr (List Inning) := do
  if !scorecard.truthy then
    pure []
  else do
    let c1 ← scorecard.get "scorecard"
    let c2 ← scorecard.get "innings"
    let c3 ← scorecard.get "score"
    let items ← (c1.pyOr (c2.pyOr (c3.pyOr (.arr [])))).iter
    eMapM parse_inning items

/-- The clean structured record built by `parse_match`. -/
structure ParsedMatch where
  match_id : Json
  name : Json
  status : Json
  venue : Json
  date : Json
  match_type : Json
  series : Json
  teams : Json
  toss : List (String × Json)
  innings : List Inning
  player_of_match : Json

/-- `parse_match(match, scorecard)`: summary fields with string/list
defaults; toss, player-of-match and innings only when the scorecard is
truthy. -/
def parse_match (m sc : Json) : Except PyErr ParsedMatch := do
  let match_id ← m.getD "id" (.str "")
  let name ← m.getD "name" (.str "")
  let status ← m.getD "status" (.str "")
  let venue ← m.getD "venue" (.str "")
  let date ← m.getD "date" (.str "")
  let match_type ← m.getD "matchType" (.str "")
  let series ← m.getD "series" (.str "")
  let teams ← m.getD "teams" (.arr [])
  if sc.truthy then do
    let toss ← sc.getD "tossResults" (.obj [])
    let tossVal ←
      if toss.truthy then do
        let w ← toss.getD "tossWinner" (.str "")
        let d ← toss.getD "tossDecision" (.str "")
        pure [("winner", w), ("decision", d)]
      else
        pure ([] : List (String × Json))
    let p1 ← sc.get "playerOfMatch"
    let p2 ← sc.get "player_of_match"
    let p3 ← sc.get "mom"
    let innings ← parse_scorecard sc
    pure
      { match_id := match_id
        name := name
        status := status
        venue := venue
        date := date
        match_type := match_type
        series := series
        teams := teams
        toss := tossVal
        innings := innings
        player_of_match := p1.pyOr (p2.pyOr (p3.pyOr (.str ""))) }
  else
    pure
      { match_id := match_id
        name := name
        status := status
        venue := venue
        date := date
        match_type := match_type
        series := series
        teams := teams
        toss := []
        innings := []
        player_of_match := .str "" }

/-- The `match_id` of a successful `parse_match` result. -/
def pmMatchId : Except PyErr ParsedMatch → Option Json
  | .ok r => some r.match_id
  | .error _ => none

/-- The `toss` of a successful `parse_match` result. -/
def pmToss : Except PyErr ParsedMatch → Option (List (String × Json))
  | .ok r => some r.toss
  | .error _ => none

/-- The `innings` of a successful `parse_match` result. -/
def pmInnings : Except PyErr ParsedMatch → Option (List Inning)
  | .ok r => some r.innings
  | .error _ => none

/-! ## fetch_cricket_data.py — Python `==`, `in`, `str()` -/

mutual

/-- Python `==` between embedded values (`1 == True` holds; container
equality is element-wise). -/
def pyEq : Json → Json → Bool
  | .null, .null => true
  | .bool a, .bool b => a == b
  | .bool a, .num n => (if a then (1 : Int) else 0) == n
  | .num n, .bool a => n == (if a then (1 : Int) else 0)
  | .num a, .num b => a == b
  | .str a, .str b => a == b
  | .arr a, .arr b => pyEqList a b
  | .obj a, .obj b => pyEqFields a b
  | _, _ => false

/-- Element-wise Python `==` on lists. -/
def pyEqList : List Json → List Json → Bool
  | [], [] => true
  | x :: xs, y :: ys => pyEq x y && pyEqList xs ys
  | _, _ => false

/-- Entry-wise Python `==` on dict field lists. -/
def pyEqFields : List (String × Json) → List (String × Json) → Bool
  | [], [] => true
  | (k1, v1) :: xs, (k2, v2) :: ys => k1 == k2 && pyEq v1 v2 && pyEqFields xs ys
  | _, _ => false

end

/-- Python `k in j`: key test on dicts, membership on lists, substring
test on strings; raises `TypeError` otherwise. -/
def Json.hasKey (j : Json) (k : String) : Except PyErr Bool :=
  match j with
  | .obj fs => .ok (fs.lookup k).isSome
  | .arr xs => .ok (xs.any fun x => pyEq x (.str k))
  | .str s => .ok (strContains s k)
  | _ => .error .typeError

/-- Python `j[k]` on a dict: `KeyError` when absent, `TypeError` on
non-dicts. -/
def Json.index (j : Json) (k : String) : Except PyErr Json :=
  match j with
  | .obj fs =>
    match fs.lookup k with
    | some v => .ok v
    | none => .error .keyError
  | _ => .error .typeError

mutual

/-- Python `str(v)` for the values interpolated into f-strings. -/
def Json.pyStr : Json → String
  | .null => "None"
  | .bool b => if b then "True" else "False"
  | .num n => toString n
  | .str s => s
  | .arr xs => "[" ++ Json.pyReprList xs ++ "]"
  | .obj fs => "\x7b" ++ Json.pyReprFields fs ++ "\x7d"

/-- Python `repr` of list elements (strings quoted). -/
def Json.pyRepr : Json → String
  | .null => "None"
  | .bool b => if b then "True" else "False"
  | .num n => toString n
  | .str s => "\x27" ++ s ++ "\x27"
  | .arr xs => "[" ++ Json.pyReprList xs ++ "]"
  | .obj fs => "\x7b" ++ Json.pyReprFields fs ++ "\x7d"

/-- Comma-separated element reprs. -/
def Json.pyReprList : List Json → String
  | [] => ""
  | [x] => Json.pyRepr x
  | x :: xs => Json.pyRepr x ++ ", " ++ Json.pyReprList xs

/-- Comma-separated dict entry reprs. -/
def Json.pyReprFields : List (String × Json) → String
  | [] => ""
  | [(k, v)] => "\x27" ++ k ++ "\x27: " ++ Json.pyRepr v
  | (k, v) :: fs => "\x27" ++ k ++ "\x27: " ++ Json.pyRepr v ++ ", " ++ Json.pyReprFields fs

end

/-! ## fetch_cricket_data.py — toss and player-of-match extraction -/

/-- Toss winner resolution in `_parse_match_data`:
`toss.get('winningTeam', {}).get('longName', '')`. -/
def fetch_toss_winner (toss : Json) : Except PyErr Json := do
  let wt ← toss.getD "winningTeam" (.obj [])
  wt.getD "longName" (.str "")

/-- Toss decision resolution in `_parse_match_data`:
`toss.get('decision', '')`. -/
def fetch_toss_decision (toss : Json) : Except PyErr Json :=
  toss.getD "decision" (.str "")

/-- The `toss` string built by `_parse_match_data`: non-empty only when
both winner and decision are truthy. -/
def fetch_toss (match_info : Json) : Except PyErr String := do
  let hk ← match_info.hasKey "tossResults"
  if hk then do
    let toss ← match_info.index "tossResults"
    let w ← fetch_toss_winner toss
    let d ← fetch_toss_decision toss
    if w.truthy && d.truthy then
      pure (w.pyStr ++ " won the toss and chose to " ++ d.pyStr)
    else
      pure ""
  else
    pure ""

/-- The `player_of_match` loop body of `_parse_match_data` for one
award: on an award-type match the accumulator is overwritten with
`player.get('longName', player.get('name', ''))`. -/
def award_step (acc : Json) (award : Json) : Except PyErr Json := do
  let aType ← award.get "awardType"
  if pyEq aType (.str "player of the match") then do
    let player ← award.getD "player" (.obj [])
    let inner ← player.getD "name" (.str "")
    player.getD "longName" inner
  else
    pure acc

/-- Effectful left fold mirroring a Python `for` loop over an
accumulator variable. -/
def eFoldlM {α β : Type} (f : β → α → Except PyErr β) (init : β) :
    List α → Except PyErr β
  | [] => .ok init
  | x :: xs =>
    match f init x with
    | .error e => .error e
    | .ok acc => eFoldlM f acc xs

/-- `player_of_match` extraction of `_parse_match_data`: iterate the
`awards` list, each matching award overwriting the previous value. -/
def awards_player_of_match (match_info : Json) : Except PyErr Json := do
  let hk ← match_info.hasKey "awards"
  if hk then do
    let awards ← match_info.index "awards"
    let items ← awards.iter
    eFoldlM award_step (.str "") items
  else
    pure (.str "")

/-! ## Scraper batting-row cores

The two HTML scrapers extract batting rows from table-cell texts.  The
DOM layer is out of scope; a row is embedded as the list of its cells'
texts (`get_text(strip=True)` / `.text.strip()` modelled by `trim`). -/

/-- Python `str.isdigit()`: non-empty, all digits. -/
def strIsDigit (t : String) : Bool := t != "" && t.toList.all Char.isDigit

/-- A batting row kept by a scraper (all cells are strings there). -/
structure ScrapedBattingEntry where
  name : String
  runs : String
  balls : String
deriving DecidableEq, Repr

/-- Non-player row test of `scrape_espn_matches.scrape_match_scorecard`:
case-sensitive substring checks. -/
def espn_skip (name : String) : Bool :=
  strContains name "Extras" || strContains name "Total" ||
  strContains name "Did not bat" || strContains name "Fall of wickets"

/-- Batting-row loop of `scrape_espn_matches.scrape_match_scorecard`:
rows with at least 7 cells, non-player rows skipped, kept only when
runs and balls are all-digit strings. -/
def espn_batting_rows : List (List String) → List ScrapedBattingEntry
  | [] => []
  | cells :: rest =>
    let out := espn_batting_rows rest
    if cells.length ≥ 7 then
      let name := trimStr (cells.headD "")
      if espn_skip name then out
      else
        let runs := trimStr (cells.getD 2 "")
        let balls := trimStr (cells.getD 3 "")
        if strIsDigit runs && strIsDigit balls then
          ⟨name, runs, balls⟩ :: out
        else out
    else out

/-- Non-player row test of
`scrape_espn_selenium.scrape_match_with_selenium`: case-insensitive
(lowercased) substring checks. -/
def selenium_skip (name : String) : Bool :=
  let ln := toLowerStr name
  strContains ln "extra" || strContains ln "total" ||
  strContains ln "did not bat" || strContains ln "fall of wicket" ||
  strContains ln "yet to bat"

/-- Name cleanup of the selenium scraper:
`re.sub(r'[†\(\)c]', '', player_name).strip()`. -/
def selenium_clean (name : String) : String :=
  trimStr (String.mk (name.toList.filter fun c =>
    !(c == '†' || c == '(' || c == ')' || c == 'c')))

/-- Batting-row loop of
`scrape_espn_selenium.scrape_match_with_selenium`: rows with at least 4
cells, non-player rows skipped on the raw name, the kept name cleaned. -/
def selenium_batting_rows : List (List String) → List ScrapedBattingEntry
  | [] => []
  | cells :: rest =>
    let out := selenium_batting_rows rest
    if cells.length ≥ 4 then
      let player_name := trimStr (cells.headD "")
      if selenium_skip player_name then out
      else
        let cleaned := selenium_clean player_name
        let runs := trimStr (cells.getD 2 "")
        let balls := trimStr (cells.getD 3 "")
        if strIsDigit runs && strIsDigit balls then
          ⟨cleaned, runs, balls⟩ :: out
        else out
    else out

/-! ## Spec-side definitions

These follow the wording of the specification / claims, for comparison
with the code-derived definitions above. -/

/-- Case-insensitive substring containment, as the spec's
"contains (case-insensitive)". -/
def containsCI (s pat : String) : Bool := strContains (toLowerStr s) (toLowerStr pat)

/-- Tournament-selection predicate as the claim words it: some
tournament marker appears (case-insensitive) in the series or title,
and no warm-up/practice marker appears in the title or series. -/
def spec_tournament_selection (title series : String) : Bool :=
  (["t20 world cup", "icc men\x27s t20", "icc t20 world cup"].any fun t =>
    containsCI series t || containsCI title t) &&
  !(["warm up", "warm-up", "warmup", "practice"].any fun w =>
    containsCI title w || containsCI series w)

/-- Tournament-selection predicate as the code computes it (the amended
claim): `t20 world cup` is checked in the series or the title, the two
`icc` markers in the series only; `warm up`, `warm-up`, `warmup`,
`practice` are warm-up markers in the title, and only `warm up`,
`warm-up` in the series. -/
def amended_tournament_selection (title series : String) : Bool :=
  let name := toLowerStr title
  let sl := toLowerStr series
  (strContains sl "t20 world cup" ||
   strContains sl "icc men\x27s t20" ||
   strContains sl "icc t20 world cup" ||
   strContains name "t20 world cup") &&
  !(strContains name "warm up" ||
    strContains name "warm-up" ||
    strContains name "warmup" ||
    strContains name "practice" ||
    strContains sl "warm up" ||
    strContains sl "warm-up")

/-- The claim's non-player markers, matched case-insensitively. -/
def claim_nonplayer_marker (name : String) : Bool :=
  containsCI name "Extras" || containsCI name "Total" ||
  containsCI name "Did not bat" || containsCI name "Fall of wickets" ||
  containsCI name "yet to bat"

/-- Award-type test on one award object (pure form, objects only). -/
def isPomAward (a : Json) : Bool :=
  pyEq (a.objGetD "awardType" .null) (.str "player of the match")

/-- Awarded player's name from one award object (pure form). -/
def pomNameOf (a : Json) : Json :=
  let p := a.objGetD "player" (.obj [])
  p.objGetD "longName" (p.objGetD "name" (.str ""))

/-- Player-of-match from the awards list as the claim words it: the
FIRST award whose type token matches exactly. -/
def spec_first_award (items : List Json) : Json :=
  match items.find? isPomAward with
  | some a => pomNameOf a
  | none => .str ""

/-- Player-of-match from the awards list as the code computes it: the
LAST award whose type token matches (later matches overwrite). -/
def last_award (items : List Json) : Json :=
  match items.reverse.find? isPomAward with
  | some a => pomNameOf a
  | none => .str ""

/-- The date predicate as amended: the match-date string parses and
equals the resolved target date; parse failure on the match side is
`false`. -/
def matchDateHolds (s : String) : Bool :=
  match strptimeDate s with
  | some d => d == Date.mk 2026 2 15
  | none => false

/-! ## Well-typed scorecard payloads

`parse_scorecard` raises only when a traversed container has the wrong
runtime type.  These predicates delimit the payloads on which every
candidate-path resolution either succeeds or falls back to the typed
default. -/

/-- The batting name resolved purely (objects only). -/
def resolvedBattingName (b : Json) : Json :=
  (b.objGetD "batsmanName" .null).pyOr
    ((b.objGetD "name" .null).pyOr ((b.objGetD "batsman" .null).pyOr (.str "")))

/-- The bowling name resolved purely (objects only). -/
def resolvedBowlingName (b : Json) : Json :=
  (b.objGetD "bowlerName" .null).pyOr
    ((b.objGetD "name" .null).pyOr ((b.objGetD "bowler" .null).pyOr (.str "")))

/-- A batting row that resolves without a dynamic type error: an object
whose resolved name is a string. -/
def battingRowOk (b : Json) : Bool := b.isObj && (resolvedBattingName b).isStr

/-- A bowling row that resolves without a dynamic type error. -/
def bowlingRowOk (b : Json) : Bool := b.isObj && (resolvedBowlingName b).isStr

/-- The batting container of an innings, purely resolved. -/
def battingSrc (i : Json) : Json :=
  (i.objGetD "batting" .null).pyOr ((i.objGetD "batsmen" .null).pyOr (.arr []))

/-- The bowling container of an innings, purely resolved. -/
def bowlingSrc (i : Json) : Json :=
  (i.objGetD "bowling" .null).pyOr ((i.objGetD "bowlers" .null).pyOr (.arr []))

/-- A list value all of whose elements satisfy `p`. -/
def isArrAllP (p : Json → Bool) : Json → Bool
  | .arr xs => xs.all p
  | _ => false

/-- An innings node whose row containers are lists of well-typed rows. -/
def inningOk (i : Json) : Bool :=
  i.isObj && isArrAllP battingRowOk (battingSrc i) &&
    isArrAllP bowlingRowOk (bowlingSrc i)

/-- The innings container of a scorecard, purely resolved. -/
def rawInningsSrc (sc : Json) : Json :=
  (sc.objGetD "scorecard" .null).pyOr
    ((sc.objGetD "innings" .null).pyOr ((sc.objGetD "score" .null).pyOr (.arr [])))

/-- A scorecard payload on which `parse_scorecard` is total: falsy, or
an object whose innings container is a list of well-typed innings. -/
def scorecardOk (sc : Json) : Bool :=
  !sc.truthy || (sc.isObj && isArrAllP inningOk (rawInningsSrc sc))

/-! ## Concrete sample payloads for the witness theorems -/

/-- A well-typed scorecard with one innings, one batting row and one
bowling row. -/
def sampleScorecard : Json :=
  Json.obj [("scorecard", Json.arr [Json.obj
    [("teamName", Json.str "India"),
     ("inningsRuns", Json.num 185),
     ("batting", Json.arr [Json.obj
       [("batsmanName", Json.str "V Kohli"), ("runs", Json.num 57)]]),
     ("bowling", Json.arr [Json.obj
       [("bowlerName", Json.str "S Afridi"), ("wickets", Json.num 2)]])]])]

/-- A minimal scorecard holding a single bowling row. -/
def sampleBowlingScorecard : Json :=
  Json.obj [("scorecard", Json.arr [Json.obj
    [("bowling", Json.arr [Json.obj [("bowlerName", Json.str "S Afridi")]])]])]

/-- The bowling entry `parse_scorecard` builds from
`sampleBowlingScorecard`. -/
def sampleBowlingEntry : BowlingEntry :=
  ⟨Json.str "S Afridi", Json.num 0, Json.num 0, Json.num 0, Json.num 0, Json.num 0⟩

/-- The innings `parse_scorecard` builds from `sampleBowlingScorecard`. -/
def sampleBowlingInning : Inning :=
  ⟨Json.str "", Json.num 0, Json.num 0, Json.num 0, Json.num 0, [],
    [sampleBowlingEntry], Json.arr []⟩

/-- An awards list holding two player-of-the-match awards. -/
def sampleAwards : List Json :=
  [Json.obj [("awardType", Json.str "player of the match"),
     ("player", Json.obj [("longName", Json.str "A")])],
   Json.obj [("awardType", Json.str "player of the match"),
     ("player", Json.obj [("longName", Json.str "B")])]]

/-- A detail payload whose toss winner and decision both resolve. -/
def sampleTossDetail : Json :=
  Json.obj [("tossResults", Json.obj
    [("winningTeam", Json.obj [("longName", Json.str "India")]),
     ("decision", Json.str "bat")])]

/-! ## Helper lemmas -/

/-- Substring containment is transitive through an intermediate pattern. -/
theorem strContains_trans (s p q : String) (h1 : strContains p q = true)
    (h2 : strContains s p = true) : strContains s q = true := by
  simp only [strContains, decide_eq_true_eq] at *
  exact h1.trans h2

/-- A successful effectful map contains only successful images. -/
theorem eMapM_mem {α β : Type} (f : α → Except PyErr β) (l : List α) (ys : List β)
    (h : eMapM f l = .ok ys) (y : β) (hy : y ∈ ys) : ∃ x ∈ l, f x = .ok y := by
  induction l generalizing ys with
  | nil =>
    simp only [eMapM, Except.ok.injEq] at h
    subst h
    simp at hy
  | cons x xs ih =>
    simp only [eMapM] at h
    cases hfx : f x with
    | error e => rw [hfx] at h; simp at h
    | ok y' =>
      rw [hfx] at h
      cases hrest : eMapM f xs with
      | error e => rw [hrest] at h; simp at h
      | ok ys' =>
        rw [hrest] at h
        simp only [Except.ok.injEq] at h
        subst h
        rcases List.mem_cons.mp hy with rfl | hmem
        · exact ⟨x, List.mem_cons_self x xs, hfx⟩
        · obtain ⟨z, hz, hfz⟩ := ih ys' hrest hmem
          exact ⟨z, List.mem_cons_of_mem x hz, hfz⟩

/-- A computation that carries a value is an `ok`. -/
theorem exOk_exists {α : Type} (e : Except PyErr α) (h : exOk e = true) :
    ∃ y, e = .ok y := by
  cases e with
  | ok y => exact ⟨y, rfl⟩
  | error er => simp [exOk] at h

/-- An effectful map over pointwise-successful computations succeeds. -/
theorem eMapM_ok {α β : Type} (f : α → Except PyErr β) (l : List α)
    (h : ∀ x ∈ l, exOk (f x) = true) : exOk (eMapM f l) = true := by
  induction l with
  | nil => rfl
  | cons x xs ih =>
    obtain ⟨y, hy⟩ := exOk_exists _ (h x (by simp))
    obtain ⟨ys, hys⟩ := exOk_exists _ (ih fun z hz => h z (by simp [hz]))
    rw [eMapM, hy, hys]
    rfl

/-- A kept bowling row carries a string name with non-blank content. -/
theorem parse_bowling_row_name (b : Json) (e : BowlingEntry)
    (h : parse_bowling_row b = .ok (some e)) :
    ∃ nm, e.name = .str nm ∧ trimStr nm ≠ "" := by
  cases b with
  | obj fs =>
    have hb : bowling_name (.obj fs) = .ok (resolvedBowlingName (.obj fs)) := rfl
    simp only [parse_bowling_row, hb, bind, Except.bind] at h
    cases hr : resolvedBowlingName (.obj fs) with
    | str nm =>
      rw [hr] at h
      simp only [Json.pyStrip] at h
      cases hemp : (trimStr nm == "") with
      | true => rw [hemp] at h; simp [pure, Except.pure] at h
      | false =>
        rw [hemp] at h
        simp only [Bool.false_eq_true, if_false, Json.getD, Json.get, bind, Except.bind,
          pure, Except.pure, Except.ok.injEq, Option.some.injEq] at h
        refine ⟨nm, ?_, by simpa using hemp⟩
        rw [← h]
    | null => rw [hr] at h; simp [Json.pyStrip] at h
    | bool b2 => rw [hr] at h; simp [Json.pyStrip] at h
    | num n => rw [hr] at h; simp [Json.pyStrip] at h
    | arr xs => rw [hr] at h; simp [Json.pyStrip] at h
    | obj fs2 => rw [hr] at h; simp [Json.pyStrip] at h
  | null => simp [parse_bowling_row, bowling_name, Json.get, Json.getD, bind, Except.bind] at h
  | bool b2 => simp [parse_bowling_row, bowling_name, Json.get, Json.getD, bind, Except.bind] at h
  | num n => simp [parse_bowling_row, bowling_name, Json.get, Json.getD, bind, Except.bind] at h
  | str s => simp [parse_bowling_row, bowling_name, Json.get, Json.getD, bind, Except.bind] at h
  | arr xs => simp [parse_bowling_row, bowling_name, Json.get, Json.getD, bind, Except.bind] at h

/-- Every entry of a parsed bowling list carries a non-blank string name. -/
theorem parse_bowling_list_names (i : Json) (bl : List BowlingEntry)
    (h : parse_bowling_list i = .ok bl) (b : BowlingEntry) (hb : b ∈ bl) :
    ∃ nm, b.name = .str nm ∧ trimStr nm ≠ "" := by
  simp only [parse_bowling_list, bind, Except.bind] at h
  cases h1 : i.get "bowling" with
  | error e => rw [h1] at h; simp at h
  | ok b1 =>
    rw [h1] at h
    cases h2 : i.get "bowlers" with
    | error e => rw [h2] at h; simp at h
    | ok b2 =>
      rw [h2] at h
      dsimp only at h
      cases h3 : (b1.pyOr (b2.pyOr (.arr []))).iter with
      | error e => rw [h3] at h; simp at h
      | ok items =>
        rw [h3] at h
        dsimp only at h
        cases h4 : eMapM parse_bowling_row items with
        | error e => rw [h4] at h; simp at h
        | ok rows =>
          rw [h4] at h
          dsimp only at h
          simp only [pure, Except.pure, Except.ok.injEq] at h
          subst h
          obtain ⟨o, ho, hid⟩ := List.mem_filterMap.mp hb
          obtain ⟨x, hx, hfx⟩ := eMapM_mem parse_bowling_row items rows h4 o ho
          cases o with
          | none => simp at hid
          | some e2 =>
            simp only [id_eq, Option.some.injEq] at hid
            subst hid
            exact parse_bowling_row_name x _ hfx

/-- A parsed innings takes its bowling list from `parse_bowling_list`. -/
theorem parse_inning_bowling (i : Json) (inn : Inning) (h : parse_inning i = .ok inn) :
    parse_bowling_list i = .ok inn.bowling := by
  cases i with
  | obj fs =>
    simp only [parse_inning, Json.get, Json.getD, bind, Except.bind] at h
    cases hbat : parse_batting_list (Json.obj fs) with
    | error e => rw [hbat] at h; simp at h
    | ok bat =>
      rw [hbat] at h
      cases hbowl : parse_bowling_list (Json.obj fs) with
      | error e => rw [hbowl] at h; simp at h
      | ok bowl =>
        rw [hbowl] at h
        simp only [pure, Except.pure, Except.ok.injEq] at h
        rw [← h]
  | null => simp [parse_inning, Json.get, Json.getD, bind, Except.bind] at h
  | bool b2 => simp [parse_inning, Json.get, Json.getD, bind, Except.bind] at h
  | num n => simp [parse_inning, Json.get, Json.getD, bind, Except.bind] at h
  | str s => simp [parse_inning, Json.get, Json.getD, bind, Except.bind] at h
  | arr xs => simp [parse_inning, Json.get, Json.getD, bind, Except.bind] at h

/-- A well-typed batting row parses without raising. -/
theorem parse_batting_row_ok (b : Json) (h : battingRowOk b = true) :
    exOk (parse_batting_row b) = true := by
  obtain ⟨h1, h2⟩ := Bool.and_eq_true_iff.mp h
  cases b with
  | obj fs =>
    have hb : batting_name (.obj fs) = .ok (resolvedBattingName (.obj fs)) := rfl
    cases hr : resolvedBattingName (.obj fs) with
    | str s =>
      simp only [parse_batting_row, hb, hr, bind, Except.bind, Json.pyStrip, Json.get,
        Json.getD]
      split <;> rfl
    | null => rw [hr] at h2; simp [Json.isStr] at h2
    | bool b2 => rw [hr] at h2; simp [Json.isStr] at h2
    | num n => rw [hr] at h2; simp [Json.isStr] at h2
    | arr xs => rw [hr] at h2; simp [Json.isStr] at h2
    | obj fs2 => rw [hr] at h2; simp [Json.isStr] at h2
  | null => simp [Json.isObj] at h1
  | bool b2 => simp [Json.isObj] at h1
  | num n => simp [Json.isObj] at h1
  | str s => simp [Json.isObj] at h1
  | arr xs => simp [Json.isObj] at h1

/-- A well-typed bowling row parses without raising. -/
theorem parse_bowling_row_ok (b : Json) (h : bowlingRowOk b = true) :
    exOk (parse_bowling_row b) = true := by
  obtain ⟨h1, h2⟩ := Bool.and_eq_true_iff.mp h
  cases b with
  | obj fs =>
    have hb : bowling_name (.obj fs) = .ok (resolvedBowlingName (.obj fs)) := rfl
    cases hr : resolvedBowlingName (.obj fs) with
    | str s =>
      simp only [parse_bowling_row, hb, hr, bind, Except.bind, Json.pyStrip, Json.get,
        Json.getD]
      split <;> rfl
    | null => rw [hr] at h2; simp [Json.isStr] at h2
    | bool b2 => rw [hr] at h2; simp [Json.isStr] at h2
    | num n => rw [hr] at h2; simp [Json.isStr] at h2
    | arr xs => rw [hr] at h2; simp [Json.isStr] at h2
    | obj fs2 => rw [hr] at h2; simp [Json.isStr] at h2
  | null => simp [Json.isObj] at h1
  | bool b2 => simp [Json.isObj] at h1
  | num n => simp [Json.isObj] at h1
  | str s => simp [Json.isObj] at h1
  | arr xs => simp [Json.isObj] at h1

/-- A well-typed batting container parses without raising. -/
theorem parse_batting_list_ok (fs : List (String × Json))
    (h : isArrAllP battingRowOk (battingSrc (Json.obj fs)) = true) :
    exOk (parse_batting_list (Json.obj fs)) = true := by
  simp only [parse_batting_list, Json.get, Json.getD, bind, Except.bind]
  rw [show ((fs.lookup "batting").getD Json.null).pyOr
      (((fs.lookup "batsmen").getD Json.null).pyOr (Json.arr [])) =
      battingSrc (Json.obj fs) from rfl]
  cases harr : battingSrc (Json.obj fs) with
  | arr xs =>
    rw [harr] at h
    simp only [isArrAllP, List.all_eq_true] at h
    simp only [Json.iter]
    obtain ⟨rows, hrows⟩ := exOk_exists _
      (eMapM_ok parse_batting_row xs fun x hx => parse_batting_row_ok x (h x hx))
    rw [hrows]
    rfl
  | null => rw [harr] at h; simp [isArrAllP] at h
  | bool b2 => rw [harr] at h; simp [isArrAllP] at h
  | num n => rw [harr] at h; simp [isArrAllP] at h
  | str s => rw [harr] at h; simp [isArrAllP] at h
  | obj fs2 => rw [harr] at h; simp [isArrAllP] at h

/-- A well-typed bowling container parses without raising. -/
theorem parse_bowling_list_ok (fs : List (String × Json))
    (h : isArrAllP bowlingRowOk (bowlingSrc (Json.obj fs)) = true) :
    exOk (parse_bowling_list (Json.obj fs)) = true := by
  simp only [parse_bowling_list, Json.get, Json.getD, bind, Except.bind]
  rw [show ((fs.lookup "bowling").getD Json.null).pyOr
      (((fs.lookup "bowlers").getD Json.null).pyOr (Json.arr [])) =
      bowlingSrc (Json.obj fs) from rfl]
  cases harr : bowlingSrc (Json.obj fs) with
  | arr xs =>
    rw [harr] at h
    simp only [isArrAllP, List.all_eq_true] at h
    simp only [Json.iter]
    obtain ⟨rows, hrows⟩ := exOk_exists _
      (eMapM_ok parse_bowling_row xs fun x hx => parse_bowling_row_ok x (h x hx))
    rw [hrows]
    rfl
  | null => rw [harr] at h; simp [isArrAllP] at h
  | bool b2 => rw [harr] at h; simp [isArrAllP] at h
  | num n => rw [harr] at h; simp [isArrAllP] at h
  | str s => rw [harr] at h; simp [isArrAllP] at h
  | obj fs2 => rw [harr] at h; simp [isArrAllP] at h

/-- A well-typed innings node parses without raising. -/
theorem parse_inning_ok (i : Json) (h : inningOk i = true) :
    exOk (parse_inning i) = true := by
  obtain ⟨h12, h3⟩ := Bool.and_eq_true_iff.mp h
  obtain ⟨h1, h2⟩ := Bool.and_eq_true_iff.mp h12
  cases i with
  | obj fs =>
    simp only [parse_inning, Json.get, Json.getD, bind, Except.bind]
    obtain ⟨bat, hbat⟩ := exOk_exists _ (parse_batting_list_ok fs h2)
    obtain ⟨bowl, hbowl⟩ := exOk_exists _ (parse_bowling_list_ok fs h3)
    rw [hbat]
    dsimp only
    rw [hbowl]
    rfl
  | null => simp [Json.isObj] at h1
  | bool b2 => simp [Json.isObj] at h1
  | num n => simp [Json.isObj] at h1
  | str s => simp [Json.isObj] at h1
  | arr xs => simp [Json.isObj] at h1

/-- One award-loop step, in terms of the pure award test. -/
theorem award_step_eq (acc a : Json) (ha : a.isObj = true)
    (hp : (a.objGetD "player" (.obj [])).isObj = true) :
    award_step acc a = .ok (if isPomAward a then pomNameOf a else acc) := by
  cases a with
  | obj fs =>
    cases hpv : (Json.obj fs).objGetD "player" (.obj []) with
    | obj pfs =>
      simp only [award_step, Json.get, Json.getD, Json.objGetD, isPomAward, pomNameOf,
        bind, Except.bind, pure, Except.pure] at *
      rw [hpv]
      by_cases hc : pyEq ((fs.lookup "awardType").getD .null) (.str "player of the match") = true
      · simp [hc]
      · simp [hc]
    | null => rw [hpv] at hp; simp [Json.isObj] at hp
    | bool b => rw [hpv] at hp; simp [Json.isObj] at hp
    | num n => rw [hpv] at hp; simp [Json.isObj] at hp
    | str s => rw [hpv] at hp; simp [Json.isObj] at hp
    | arr xs => rw [hpv] at hp; simp [Json.isObj] at hp
  | null => simp [Json.isObj] at ha
  | bool b => simp [Json.isObj] at ha
  | num n => simp [Json.isObj] at ha
  | str s => simp [Json.isObj] at ha
  | arr xs => simp [Json.isObj] at ha

/-- The award loop keeps the LAST matching award (later matches
overwrite the accumulator). -/
theorem award_fold (items : List Json) (acc : Json)
    (h : ∀ a ∈ items, a.isObj = true ∧ (a.objGetD "player" (.obj [])).isObj = true) :
    eFoldlM award_step acc items = .ok (match items.reverse.find? isPomAward with
      | some a => pomNameOf a
      | none => acc) := by
  induction items generalizing acc with
  | nil => rfl
  | cons a rest ih =>
    have ha := h a (by simp)
    have hrest : ∀ x ∈ rest, x.isObj = true ∧ (x.objGetD "player" (.obj [])).isObj = true :=
      fun x hx => h x (by simp [hx])
    rw [eFoldlM, award_step_eq acc a ha.1 ha.2]
    dsimp only
    rw [ih _ hrest]
    rw [List.reverse_cons, List.find?_append]
    cases hf : rest.reverse.find? isPomAward with
    | some x => simp [Option.or]
    | none =>
      by_cases hp : isPomAward a = true
      · simp [Option.or, List.find?, hp]
      · simp [Option.or, List.find?, hp]

/-! ## Claim theorems -/

/-- C1 counterexample: a raw summary with no identifier under any
candidate path does NOT make `parse_match` fail — it returns a full
record whose `match_id` is the empty-string default. -/
theorem parse_match_missing_id_no_failure_cex :
    exOk (parse_match (Json.obj []) Json.null) = true ∧
    pmMatchId (parse_match (Json.obj []) Json.null) = some (Json.str "") :=
  ⟨rfl, rfl⟩

/-- C1 (amended): for every raw summary object with no `id` key,
`parse_match` raises no error and returns a record whose `match_id` is
the empty string; there is no `MissingIdentifier` failure path. -/
theorem parse_match_missing_id_defaults :
    ∀ fs : List (String × Json), fs.lookup "id" = none →
    exOk (parse_match (Json.obj fs) Json.null) = true ∧
    pmMatchId (parse_match (Json.obj fs) Json.null) = some (Json.str "") := by
  intro fs h
  refine ⟨rfl, ?_⟩
  show some ((fs.lookup "id").getD (Json.str "")) = some (Json.str "")
  rw [h]
  rfl

/-- C1 witness: the amended statement at a concrete id-less summary. -/
theorem parse_match_missing_id_defaults_witness :
    exOk (parse_match (Json.obj [("name", Json.str "India vs Pakistan")]) Json.null) = true ∧
    pmMatchId (parse_match (Json.obj [("name", Json.str "India vs Pakistan")]) Json.null) =
      some (Json.str "") :=
  parse_match_missing_id_defaults [("name", Json.str "India vs Pakistan")] rfl

/-- C2: for a raw match with a string status and boolean `matchEnded`
flag, `is_completed` is true exactly when the flag is true or the
status contains (case-insensitively) one of `won`, `tied`, `abandoned`,
`no result`; the value is derived by this rule, not copied. -/
theorem is_completed_flag_or_status_iff :
    ∀ (fs : List (String × Json)) (s : String) (e : Bool),
    fs.lookup "status" = some (Json.str s) →
    fs.lookup "matchEnded" = some (Json.bool e) →
    is_completed (Json.obj fs) = .ok (e || containsCI s "won" || containsCI s "tied" ||
      containsCI s "abandoned" || containsCI s "no result") := by
  intro fs s e h1 h2
  simp only [is_completed, Json.getD, bind, Except.bind, h1, h2, Option.getD,
    Json.pyLower, pyEqTrue]
  rfl

/-- C2 witness: the rule at a concrete completed match. -/
theorem is_completed_flag_or_status_iff_witness :
    is_completed (Json.obj [("status", Json.str "India won by 6 wickets"),
      ("matchEnded", Json.bool false)]) =
    .ok (false || containsCI "India won by 6 wickets" "won" ||
      containsCI "India won by 6 wickets" "tied" ||
      containsCI "India won by 6 wickets" "abandoned" ||
      containsCI "India won by 6 wickets" "no result") :=
  is_completed_flag_or_status_iff
    [("status", Json.str "India won by 6 wickets"), ("matchEnded", Json.bool false)]
    "India won by 6 wickets" false rfl rfl

/-- C3 counterexample: a match whose series holds both a tournament
marker and the warm-up word `practice` is SELECTED by the code (warm-up
words in the series are only `warm up` and `warm-up`), while the
claim's symmetric predicate excludes it. -/
theorem tournament_warmup_marker_cex :
    is_main_t20_world_cup (Json.obj [("name", Json.str "india vs pakistan"),
      ("series", Json.str "T20 World Cup Practice")]) = .ok true ∧
    spec_tournament_selection "india vs pakistan" "T20 World Cup Practice" = false :=
  ⟨rfl, by decide⟩

/-- C3 (amended): the selection predicate equals the AND-NOT
combination with the markers checked where the code checks them:
`t20 world cup` in series or title, the two `icc` markers in the series
only; warm-up markers `warm up`, `warm-up`, `warmup`, `practice` in the
title and only `warm up`, `warm-up` in the series.  A title matching a
tournament marker and a warm-up marker is excluded. -/
theorem is_main_t20_world_cup_amended :
    ∀ n s, is_main_t20_world_cup (Json.obj [("name", .str n), ("series", .str s)]) =
      .ok (amended_tournament_selection n s) :=
  fun _ _ => rfl

/-- C4 counterexample: a scorecard whose innings container holds a
non-object raises (models Python `AttributeError`), so field resolution
is not total on arbitrarily-shaped input. -/
theorem parse_scorecard_raises_cex :
    parse_scorecard (Json.obj [("scorecard", Json.arr [Json.num 1])]) =
      .error .attributeError :=
  rfl

/-- C4 (amended): on any payload whose traversed containers are
well-typed (each innings node an object, each row container a list of
objects with a string-or-absent name), `parse_scorecard` never raises:
absent keys and falsy values fall back to the typed defaults.  A
wrong-typed intermediate container (see the counterexample) raises. -/
theorem parse_scorecard_total_on_welltyped :
    ∀ sc : Json, scorecardOk sc = true → exOk (parse_scorecard sc) = true := by
  intro sc h
  by_cases ht : sc.truthy = true
  · simp only [scorecardOk, ht, Bool.not_true, Bool.false_or, Bool.and_eq_true] at h
    obtain ⟨h1, h2⟩ := h
    cases sc with
    | obj fs =>
      simp only [parse_scorecard, Json.get, Json.getD, bind, Except.bind, ht,
        Bool.not_true, Bool.false_eq_true, if_false]
      rw [show ((fs.lookup "scorecard").getD Json.null).pyOr
          (((fs.lookup "innings").getD Json.null).pyOr
            (((fs.lookup "score").getD Json.null).pyOr (Json.arr []))) =
          rawInningsSrc (Json.obj fs) from rfl]
      cases harr : rawInningsSrc (Json.obj fs) with
      | arr xs =>
        rw [harr] at h2
        simp only [isArrAllP, List.all_eq_true] at h2
        simp only [Json.iter]
        exact eMapM_ok parse_inning xs fun x hx => parse_inning_ok x (h2 x hx)
      | null => rw [harr] at h2; simp [isArrAllP] at h2
      | bool b2 => rw [harr] at h2; simp [isArrAllP] at h2
      | num n => rw [harr] at h2; simp [isArrAllP] at h2
      | str s => rw [harr] at h2; simp [isArrAllP] at h2
      | obj fs2 => rw [harr] at h2; simp [isArrAllP] at h2
    | null => simp [Json.isObj] at h1
    | bool b2 => simp [Json.isObj] at h1
    | num n => simp [Json.isObj] at h1
    | str s => simp [Json.isObj] at h1
    | arr xs => simp [Json.isObj] at h1
  · simp only [Bool.not_eq_true] at ht
    simp [parse_scorecard, ht, pure, Except.pure, exOk]

/-- C4 witness: totality at a concrete well-typed scorecard. -/
theorem parse_scorecard_total_on_welltyped_witness :
    scorecardOk sampleScorecard = true ∧ exOk (parse_scorecard sampleScorecard) = true :=
  ⟨rfl, parse_scorecard_total_on_welltyped sampleScorecard rfl⟩

/-- C5: a raw summary with a resolvable (non-empty) identifier and a
falsy detail payload normalizes without error to a record populated
from the summary, with empty innings and empty toss. -/
theorem parse_match_empty_detail_defaults :
    ∀ (fs : List (String × Json)) (i : String) (sc : Json),
    fs.lookup "id" = some (Json.str i) → i ≠ "" → sc.truthy = false →
    exOk (parse_match (Json.obj fs) sc) = true ∧
    pmMatchId (parse_match (Json.obj fs) sc) = some (Json.str i) ∧
    pmToss (parse_match (Json.obj fs) sc) = some [] ∧
    pmInnings (parse_match (Json.obj fs) sc) = some [] := by
  intro fs i sc h1 h2 h3
  simp only [parse_match, Json.getD, bind, Except.bind, h3, Bool.false_eq_true,
    if_false, h1, Option.getD, exOk, pmMatchId, pmToss, pmInnings, pure, Except.pure]
  simp

/-- C5 witness: the statement at a concrete summary with absent detail. -/
theorem parse_match_empty_detail_defaults_witness :
    exOk (parse_match (Json.obj [("id", Json.str "abc123")]) (Json.obj [])) = true ∧
    pmMatchId (parse_match (Json.obj [("id", Json.str "abc123")]) (Json.obj [])) =
      some (Json.str "abc123") ∧
    pmToss (parse_match (Json.obj [("id", Json.str "abc123")]) (Json.obj [])) = some [] ∧
    pmInnings (parse_match (Json.obj [("id", Json.str "abc123")]) (Json.obj [])) = some [] :=
  parse_match_empty_detail_defaults [("id", Json.str "abc123")] "abc123" (Json.obj [])
    rfl (by decide) rfl

/-- C6 counterexample: in `parse_match`, a truthy `tossResults` with
only a winner yields a NON-empty toss whose decision is the empty
string, so the toss field is not "present only if both resolved". -/
theorem parse_match_toss_partial_cex :
    pmToss (parse_match (Json.obj [])
      (Json.obj [("tossResults", Json.obj [("tossWinner", Json.str "India")])])) =
      some [("winner", Json.str "India"), ("decision", Json.str "")] ∧
    [("winner", Json.str "India"), ("decision", Json.str "")] ≠ ([] : List (String × Json)) :=
  ⟨rfl, by simp⟩

/-- C6 (amended): the both-fields rule holds in `_parse_match_data` of
fetch_cricket_data.py: its toss string is non-empty only when both the
winning team and the decision resolve truthy.  In `parse_match` the
toss dict is set whenever `tossResults` is truthy, each field
defaulting to the empty string independently (see the counterexample). -/
theorem fetch_toss_requires_both :
    ∀ (mi : Json) (s : String), fetch_toss mi = .ok s → s ≠ "" →
    ∃ toss w d, mi.index "tossResults" = .ok toss ∧ fetch_toss_winner toss = .ok w ∧
      fetch_toss_decision toss = .ok d ∧ w.truthy = true ∧ d.truthy = true := by
  intro mi s h hne
  simp only [fetch_toss, bind, Except.bind] at h
  cases hk : mi.hasKey "tossResults" with
  | error e => rw [hk] at h; simp at h
  | ok b =>
    rw [hk] at h
    cases b with
    | false =>
      simp only [Bool.false_eq_true, if_false, pure, Except.pure, Except.ok.injEq] at h
      exact absurd h.symm hne
    | true =>
      simp only [if_true] at h
      cases hidx : mi.index "tossResults" with
      | error e => rw [hidx] at h; simp at h
      | ok toss =>
        rw [hidx] at h
        dsimp only at h
        cases hw : fetch_toss_winner toss with
        | error e => rw [hw] at h; simp at h
        | ok w =>
          rw [hw] at h
          dsimp only at h
          cases hd : fetch_toss_decision toss with
          | error e => rw [hd] at h; simp at h
          | ok d =>
            rw [hd] at h
            dsimp only at h
            by_cases hc : (w.truthy && d.truthy) = true
            · obtain ⟨hwt, hdt⟩ := Bool.and_eq_true_iff.mp hc
              exact ⟨toss, w, d, rfl, hw, hd, hwt, hdt⟩
            · rw [if_neg hc] at h
              simp only [pure, Except.pure, Except.ok.injEq] at h
              exact absurd h.symm hne

/-- C6 witness: the amended statement at a fully resolved toss. -/
theorem fetch_toss_requires_both_witness :
    ∃ toss w d, sampleTossDetail.index "tossResults" = .ok toss ∧
      fetch_toss_winner toss = .ok w ∧ fetch_toss_decision toss = .ok d ∧
      w.truthy = true ∧ d.truthy = true :=
  fetch_toss_requires_both sampleTossDetail "India won the toss and chose to bat"
    rfl (by decide)

/-- C7 counterexample: with two awards of the matching type, the code
returns the SECOND (last) awardee while the claim's first-award rule
returns the first. -/
theorem awards_last_overwrites_cex :
    awards_player_of_match (Json.obj [("awards", Json.arr sampleAwards)]) =
      .ok (Json.str "B") ∧
    spec_first_award sampleAwards = Json.str "A" :=
  ⟨rfl, rfl⟩

/-- C7 (amended): the awards list is filtered by a case-sensitive exact
match on the award-type token, but the LAST award of that type wins
(each match overwrites the previous); the direct-field and
alternate-cased chain lives in `parse_match` (keys `playerOfMatch`,
`player_of_match`, `mom`) with no awards fallback. -/
theorem awards_player_of_match_takes_last :
    ∀ items : List Json,
    (∀ a ∈ items, a.isObj = true ∧ (a.objGetD "player" (.obj [])).isObj = true) →
    awards_player_of_match (Json.obj [("awards", Json.arr items)]) =
      .ok (last_award items) := by
  intro items h
  simp only [awards_player_of_match, Json.hasKey, Json.index, Json.iter, bind, Except.bind]
  rw [show (List.lookup "awards" [("awards", Json.arr items)]) = some (Json.arr items) from rfl]
  dsimp only
  rw [award_fold items (.str "") h]
  rfl

/-- C7 witness: the amended statement at the two-award sample list. -/
theorem awards_player_of_match_takes_last_witness :
    awards_player_of_match (Json.obj [("awards", Json.arr sampleAwards)]) =
      .ok (last_award sampleAwards) :=
  awards_player_of_match_takes_last sampleAwards (by decide)

/-- C8 counterexample: in scrape_espn_matches.py a batting row named
`extras foo` (lower case, so missed by the case-sensitive check) and a
row with an empty name are both KEPT, though the claim marks the first
as a non-player row and requires empty names to be excluded. -/
theorem espn_nonplayer_row_kept_cex :
    espn_batting_rows [["extras foo", "", "10", "8", "", "", ""],
      ["", "", "10", "8", "", "", ""]] =
      [⟨"extras foo", "10", "8"⟩, ⟨"", "10", "8"⟩] ∧
    claim_nonplayer_marker "extras foo" = true :=
  ⟨by decide, by decide⟩

/-- C8 (amended): the selenium scraper excludes every row the claim
marks (its lowercased markers `extra` ... `yet to bat` cover the
claimed markers case-insensitively), and a skipped row contributes
nothing to the batting list; the espn_matches scraper matches
case-sensitively without `yet to bat`, and neither scraper drops
empty-name rows (that exclusion lives in `parse_scorecard`). -/
theorem selenium_skip_covers_claim_markers :
    ∀ (name : String) (cells : List String),
    (claim_nonplayer_marker name = true → selenium_skip name = true) ∧
    (selenium_skip (trimStr (cells.headD "")) = true → selenium_batting_rows [cells] = []) := by
  intro name cells
  constructor
  · intro h
    simp only [claim_nonplayer_marker, containsCI, Bool.or_eq_true] at h
    simp only [selenium_skip, Bool.or_eq_true]
    obtain (((h | h) | h) | h) | h := h
    · exact Or.inl (Or.inl (Or.inl (Or.inl (strContains_trans _ _ _ (by decide) h))))
    · exact Or.inl (Or.inl (Or.inl (Or.inr h)))
    · exact Or.inl (Or.inl (Or.inr h))
    · exact Or.inl (Or.inr (strContains_trans _ _ _ (by decide) h))
    · exact Or.inr h
  · intro hskip
    by_cases hlen : cells.length ≥ 4
    · simp only [selenium_batting_rows]
      rw [if_pos hlen, if_pos hskip]
    · simp only [selenium_batting_rows]
      rw [if_neg hlen]

/-- C8 witness: a claimed marker row is skipped and dropped. -/
theorem selenium_skip_covers_claim_markers_witness :
    selenium_skip "Extras 12 (b 4)" = true ∧
    selenium_batting_rows [["Extras 12 (b 4)", "", "10", "8"]] = [] :=
  ⟨(selenium_skip_covers_claim_markers "Extras 12 (b 4)" []).1 (by decide),
   (selenium_skip_covers_claim_markers "Extras 12 (b 4)"
      ["Extras 12 (b 4)", "", "10", "8"]).2 (by decide)⟩

/-- C9 counterexample: a malformed TARGET date string raises an
uncaught error in `get_target_date` (it is outside the `try` block),
so the predicate does not evaluate to false on every parse failure. -/
theorem target_date_parse_raises_cex :
    is_on_target_date_with "bad" (Json.obj [("date", Json.str "2026-02-15")]) =
      .error .valueError :=
  rfl

/-- C9 (amended): with the configured target date (which parses), the
predicate holds exactly when the match-date string parses to the same
calendar date; a match-side parse failure yields false without
raising.  A target-side parse failure raises (see the
counterexample). -/
theorem is_on_target_date_amended :
    ∀ s, is_on_target_date (Json.obj [("date", Json.str s)]) = .ok (matchDateHolds s) := by
  intro s
  by_cases hs : s = ""
  · subst hs; rfl
  · have ht : (Json.str s).truthy = true := by simp [Json.truthy, hs]
    have htd : strptimeDate TEST_DATE = some ⟨2026, 2, 15⟩ := by decide
    simp only [is_on_target_date, is_on_target_date_with, get_target_date_with, htd,
      bind, Except.bind, Json.getD, Option.getD, ht, matchDateHolds]
    cases h : strptimeDate s <;> simp [h, ht, pure, Except.pure]

/-- C10: every bowling entry in every innings of a successful
`parse_scorecard` run has a string name whose stripped form is
non-empty — blank bowling rows are excluded like batting rows. -/
theorem parse_scorecard_bowling_names_nonempty :
    ∀ (sc : Json) (innings : List Inning), parse_scorecard sc = .ok innings →
    ∀ inn ∈ innings, ∀ b ∈ inn.bowling, ∃ nm, b.name = .str nm ∧ trimStr nm ≠ "" := by
  intro sc innings h inn hinn b hb
  simp only [parse_scorecard, bind, Except.bind] at h
  by_cases ht : sc.truthy = true
  · rw [if_neg (by simp [ht])] at h
    cases h1 : sc.get "scorecard" with
    | error e => rw [h1] at h; simp at h
    | ok c1 =>
      rw [h1] at h
      cases h2 : sc.get "innings" with
      | error e => rw [h2] at h; simp at h
      | ok c2 =>
        rw [h2] at h
        cases h3 : sc.get "score" with
        | error e => rw [h3] at h; simp at h
        | ok c3 =>
          rw [h3] at h
          dsimp only at h
          cases h4 : (c1.pyOr (c2.pyOr (c3.pyOr (.arr [])))).iter with
          | error e => rw [h4] at h; simp at h
          | ok items =>
            rw [h4] at h
            dsimp only at h
            obtain ⟨x, hx, hfx⟩ := eMapM_mem parse_inning items innings h inn hinn
            exact parse_bowling_list_names x inn.bowling (parse_inning_bowling x inn hfx) b hb
  · rw [if_pos (by simp [Bool.not_eq_true] at ht; simp [ht])] at h
    simp only [pure, Except.pure, Except.ok.injEq] at h
    subst h
    simp at hinn

/-- C10 witness: the invariant at a concrete one-bowler scorecard. -/
theorem parse_scorecard_bowling_names_nonempty_witness :
    ∃ nm, sampleBowlingEntry.name = Json.str nm ∧ trimStr nm ≠ "" :=
  parse_scorecard_bowling_names_nonempty sampleBowlingScorecard [sampleBowlingInning]
    rfl sampleBowlingInning (List.mem_singleton.mpr rfl) sampleBowlingEntry
    (List.mem_singleton.mpr rfl)
